import Mathlib

/-!
Verification of the service layer in `src/services/email.ts` and
`src/services/social.ts` (a marketing/social-media web application).

The development shallowly embeds the two TypeScript modules:

* pure helpers (the template-substitution loop of `scheduleCampaign`, the
  rate computations of `getCampaignPerformance`, the Zod-schema validation
  of the social service) become Lean functions;
* the external collaborators (Supabase record store, Resend delivery
  provider, `@react-email/render`) become explicit state threaded through
  each function: a `Store` of typed rows, a log of attempted deliveries,
  and an `Env` that decides whether a given delivery succeeds and how
  content is converted to markup;
* JavaScript `number` arithmetic is modelled by `JsNum` (exact rationals
  plus `NaN` and the two infinities), which is faithful for the
  division-by-zero behaviour under scrutiny;
* thrown exceptions become `Except` results; per-recipient `try/catch`
  becomes a `Bool` outcome, exactly as in the source.

`email.ts` contains two concatenated revisions of the module.  Their
campaign-sending loop, analytics and template handling are identical; the
single behavioural difference is the precondition guard of
`scheduleCampaign` (the earlier revision reads `campaign.scheduled_for`, a
field that does not exist on `EmailCampaign`; the later one reads
`campaign.scheduled_at`).  Both guards are embedded below
(`scheduleCampaign` and `scheduleCampaignLegacy`).
-/

/-! ## Template renderer

`scheduleCampaign` substitutes campaign variables with the loop

```ts
let content = template.content;
template.variables.forEach((variable: string) => {
  const value = contact[variable] || '';
  content = content.replace(`{{${variable}}}`, value);
});
```

JavaScript `String.prototype.replace` with a string pattern replaces only
the first occurrence of the pattern, and — even for a string pattern —
processes the replacement string through `GetSubstitution`
(ECMA-262 22.2.7.2): `$$` becomes `$`, `$&` the matched substring,
`` $` `` the text before the match, `$'` the text after the match; a `$`
followed by anything else (including digits, since a string pattern has
no capture groups) stays literal.  `getSubstitution` is that expansion
and `listReplaceFirstFrom` the scan for the first occurrence, carrying
the already-scanned text so the match position's before/after context is
available (an empty pattern matches at position 0, as in JS). -/

/-- The backquote character, U+0060 (written via its code point). -/
def backquoteChar : Char := Char.ofNat 96

/-- The apostrophe character, U+0027 (written via its code point). -/
def singleQuoteChar : Char := Char.ofNat 39

/-- ECMA-262 `GetSubstitution` for a string pattern (no capture groups):
expand `$$`, `$&`, `` $` `` and `$'` in the replacement template; any
other `$` is literal. -/
def getSubstitution (matched preceding following : List Char) :
    List Char → List Char
  | [] => []
  | c :: rest =>
      if c = '$' then
        match rest with
        | [] => ['$']
        | d :: rest' =>
            if d = '$' then '$' :: getSubstitution matched preceding following rest'
            else if d = '&' then
              matched ++ getSubstitution matched preceding following rest'
            else if d = backquoteChar then
              preceding ++ getSubstitution matched preceding following rest'
            else if d = singleQuoteChar then
              following ++ getSubstitution matched preceding following rest'
            else '$' :: getSubstitution matched preceding following (d :: rest')
      else c :: getSubstitution matched preceding following rest

/-- Scan for the first occurrence of `pat`; `acc` is the text already
scanned (the match's preceding context).  At the first match the
`GetSubstitution`-expanded replacement is inserted and the rest of the
string is kept verbatim. -/
def listReplaceFirstFrom (pat rep : List Char) : List Char → List Char → List Char
  | acc, [] => if pat = [] then getSubstitution pat acc [] rep else []
  | acc, c :: s =>
      if pat <+: (c :: s) then
        getSubstitution pat acc ((c :: s).drop pat.length) rep
          ++ (c :: s).drop pat.length
      else c :: listReplaceFirstFrom pat rep (acc ++ [c]) s

def listReplaceFirst (pat rep s : List Char) : List Char :=
  listReplaceFirstFrom pat rep [] s

/-- JS `s.replace(pat, rep)` for a string pattern: first occurrence only,
with `$`-sequences of `rep` expanded. -/
def replaceFirst (s pat rep : String) : String :=
  ⟨listReplaceFirst pat.data rep.data s.data⟩

/-- A replacement string with no `$` is inserted verbatim by
`GetSubstitution`. -/
def DollarFree (s : List Char) : Prop := ∀ c ∈ s, c ≠ '$'

instance (s : List Char) : Decidable (DollarFree s) := by
  unfold DollarFree; infer_instance

/-- The `contact[variable] || ''` read: the contact's column value, or the
empty string when the column is absent (an absent column is `undefined`,
which is falsy; an empty-string column is also falsy and likewise yields
`''`). -/
def contactValue (contact : String → Option String) (v : String) : String :=
  (contact v).getD ""

/-- The variable-substitution loop of `scheduleCampaign`
(`email.ts` lines 107-112 and 294-299): fold over `template.variables` (here `vars`) in
listed order, replacing the first occurrence of the literal token
`\x7b\x7bname\x7d\x7d` by the contact's value for `name`. -/
def substituteVars (content : String) (vars : List String)
    (contact : String → Option String) : String :=
  vars.foldl
    (fun c v => replaceFirst c ("\x7b\x7b" ++ v ++ "\x7d\x7d") (contactValue contact v))
    content

/-! ### A segment view of template contents

To state what the renderer does to a whole template we view the content
string as a list of segments: literal runs and placeholder holes.
`flattenC` maps the view back to the character list it denotes; a hole
named `n` denotes the token `\x7b\x7bn\x7d\x7d`. -/

inductive Seg where
  | lit : String → Seg
  | hole : String → Seg
deriving DecidableEq

/-- Characters of the token `\x7b\x7bv\x7d\x7d`. -/
def tokenChars (v : List Char) : List Char :=
  '{' :: '{' :: (v ++ [ '}', '}'])

def Seg.chars : Seg → List Char
  | .lit s => s.data
  | .hole n => tokenChars n.data

def flattenC : List Seg → List Char
  | [] => []
  | s :: rest => s.chars ++ flattenC rest

/-- The content string a segment list denotes. -/
def segStr (segs : List Seg) : String := ⟨flattenC segs⟩

/-- A placeholder name is brace-free (it contains neither `\x7b` nor
`\x7d`), so writing it between double braces yields a well-delimited
token. -/
def NameOk (n : List Char) : Prop := ∀ c ∈ n, c ≠ '{' ∧ c ≠ '}'

/-- A literal run contains no `\x7b`, so it cannot open a token. -/
def LitOk (s : List Char) : Prop := ∀ c ∈ s, c ≠ '{'

def SegOk : Seg → Prop
  | .lit s => LitOk s.data
  | .hole n => NameOk n.data

def SegsOk (segs : List Seg) : Prop := ∀ sg ∈ segs, SegOk sg

instance (n : List Char) : Decidable (NameOk n) := by
  unfold NameOk; infer_instance

instance (s : List Char) : Decidable (LitOk s) := by
  unfold LitOk; infer_instance

instance (sg : Seg) : Decidable (SegOk sg) := by
  cases sg <;> (unfold SegOk; infer_instance)

instance (segs : List Seg) : Decidable (SegsOk segs) := by
  unfold SegsOk; infer_instance

/-- Replacing the first hole named `v` (if any) by a literal: the
segment-level counterpart of one `replaceFirst` step. -/
def replaceHole1 : List Seg → String → String → List Seg
  | [], _, _ => []
  | .lit s :: rest, v, val => .lit s :: replaceHole1 rest v val
  | .hole n :: rest, v, val =>
      if n = v then .lit val :: rest else .hole n :: replaceHole1 rest v val

/-- Replacing every hole named `v` by a literal. -/
def mapHole (v val : String) (sg : Seg) : Seg :=
  if sg = .hole v then .lit val else sg

/-- Number of holes named `v` in a segment list. -/
def holeCount (segs : List Seg) (v : String) : Nat :=
  (segs.filter (fun sg => sg = Seg.hole v)).length

/-- Segment-level view of the whole substitution loop. -/
def applyVars (vars : List String) (contact : String → Option String)
    (segs : List Seg) : List Seg :=
  vars.foldl (fun sg v => replaceHole1 sg v (contactValue contact v)) segs

/-- The renderer's per-segment effect when every listed variable has at
most one hole: a hole whose name is listed becomes the contact's value,
every other segment is untouched. -/
def substSeg (vars : List String) (contact : String → Option String) : Seg → Seg
  | .lit s => .lit s
  | .hole n => if n ∈ vars then .lit (contactValue contact n) else .hole n

/-! ## Email service model (`src/services/email.ts`)

The Supabase record store becomes a `Store` of typed rows; the Resend
delivery provider and `@react-email/render` become an `Env` supplying a
per-contact delivery verdict (`sendOk`, the outcome of
`resend.emails.send` — `true` for a completed send, `false` for a throw),
the markup conversion (`renderHtml`, opaque: the spec pins no semantics on
it), and the current timestamp (`now`, for `new Date().toISOString()`).
Store reads and writes themselves are modelled as reliable; thrown
preconditions become `Except.error`. -/

structure EmailTemplate where
  id : String
  name : String
  subject : String
  content : String
  /-- The `variables` column of the template (`variables` is a reserved
  word in Lean, hence the shortened field name). -/
  vars : List String
deriving DecidableEq

structure EmailCampaign where
  id : String
  name : String
  template_id : String
  status : String
  scheduled_at : Option String
  sent_at : Option String
  target_audience : List (String × String)
deriving DecidableEq

/-- A row of the `contacts` collection: an open record of columns.  The
campaign loop reads arbitrary columns (`contact[variable]`), plus
`contact.id` and `contact.email`; all are modelled as string columns. -/
structure Contact where
  attrs : List (String × String)
deriving DecidableEq

def Contact.get (c : Contact) (k : String) : Option String :=
  (c.attrs.find? (fun p => p.fst == k)).map Prod.snd

def Contact.id (c : Contact) : String := (c.get "id").getD ""

def Contact.email (c : Contact) : String := (c.get "email").getD ""

/-- A `campaign_analytics` row.  `scheduleCampaign` inserts only
`campaign_id`, `recipient_id` and `sent_at`; the remaining columns are
populated by downstream processes outside this system. -/
structure AnalyticsEvent where
  campaign_id : String
  recipient_id : String
  sent_at : String
  opened_at : Option String
  clicked_at : Option String
  converted_at : Option String
  unsubscribed_at : Option String
  conversion_value : Option Rat
deriving DecidableEq

def mkSentEvent (cid rid now : String) : AnalyticsEvent :=
  ⟨cid, rid, now, none, none, none, none, none⟩

/-- One message handed to the delivery provider
(`resend.emails.send({from, to, subject, html})`); `from`/`to` are named
`sender`/`recipient` because `from` is a Lean keyword. -/
structure SentEmail where
  sender : String
  recipient : String
  subject : String
  html : String
deriving DecidableEq

structure Store where
  email_templates : List EmailTemplate
  email_campaigns : List EmailCampaign
  contacts : List Contact
  campaign_analytics : List AnalyticsEvent
deriving DecidableEq

/-- The observable world: the record store plus the log of every message
handed to the delivery provider. -/
structure World where
  store : Store
  sent : List SentEmail
deriving DecidableEq

structure Env where
  sendOk : Contact → Bool
  renderHtml : String → String
  now : String

inductive SendError where
  | missingSchedule
  | templateNotFound
deriving DecidableEq

/-- The `.match(campaign.target_audience)` filter: every key/value pair of
the audience object must equal the contact's column. -/
def audienceMatches (c : Contact) (aud : List (String × String)) : Bool :=
  aud.all (fun p => c.get p.fst == some p.snd)

/-- `getEmailTemplate` (email.ts 256-270): single-row read by id.  A
missing row makes `.single()` error, surfaced by `scheduleCampaign` as its
template-not-found failure, so the model returns an `Option`. -/
def getEmailTemplate (store : Store) (id : String) : Option EmailTemplate :=
  store.email_templates.find? (fun t => t.id == id)

/-- Per-contact rendering (email.ts 294-302): substitute the template's
variables from the contact's columns, then convert to markup. -/
def renderForContact (env : Env) (template : EmailTemplate) (c : Contact) :
    SentEmail :=
  let content := substituteVars template.content template.vars (fun k => c.get k)
  let html := env.renderHtml content
  { sender := "QueerLuxe Travel <hello@queerluxe.travel>",
    recipient := c.email, subject := template.subject, html := html }

/-- One iteration of the per-contact `try { ... } catch { return false }`
block (email.ts 292-324): the delivery attempt is always made; on success
an analytics event is inserted and the iteration yields `true`; a delivery
throw is caught and yields `false` without touching the other contacts.
The accumulator is (delivery log, analytics inserts, per-contact
outcomes). -/
def attemptSend (env : Env) (campaign : EmailCampaign) (template : EmailTemplate)
    (acc : List SentEmail × List AnalyticsEvent × List Bool) (c : Contact) :
    List SentEmail × List AnalyticsEvent × List Bool :=
  let msg := renderForContact env template c
  if env.sendOk c then
    (acc.1 ++ [msg], acc.2.1 ++ [mkSentEvent campaign.id c.id env.now],
      acc.2.2 ++ [true])
  else
    (acc.1 ++ [msg], acc.2.1, acc.2.2 ++ [false])

/-- The whole fan-out (`contacts.map(async ...)` then `Promise.all`).  The
asynchronous fan-out has no ordering guarantee; it is modelled in contact
order, which fixes one interleaving of the independent per-contact
effects. -/
def runCampaignLoop (env : Env) (campaign : EmailCampaign)
    (template : EmailTemplate) (contacts : List Contact) :
    List SentEmail × List AnalyticsEvent × List Bool :=
  contacts.foldl (attemptSend env campaign template) ([], [], [])

/-- The closing status update (email.ts 329-332):
`update({status: 'sent', sent_at: now}).eq('id', campaign.id)`. -/
def markCampaignSent (env : Env) (cid : String) (k : EmailCampaign) :
    EmailCampaign :=
  if k.id == cid then { k with status := "sent", sent_at := some env.now } else k

/-- Everything `scheduleCampaign` does after its schedule guard: template
lookup, audience resolution, fan-out, status update, `return true`.  This
body is shared verbatim by the two revisions of the module. -/
def campaignSendBody (env : Env) (w : World) (campaign : EmailCampaign) :
    World × Except SendError Bool :=
  match getEmailTemplate w.store campaign.template_id with
  | none => (w, .error .templateNotFound)
  | some template =>
      let contacts := w.store.contacts.filter
        (fun c => audienceMatches c campaign.target_audience)
      let r := runCampaignLoop env campaign template contacts
      let w' : World :=
        { store := { w.store with
            campaign_analytics := w.store.campaign_analytics ++ r.2.1,
            email_campaigns :=
              w.store.email_campaigns.map (markCampaignSent env campaign.id) },
          sent := w.sent ++ r.1 }
      (w', .ok true)

/-- `scheduleCampaign`, later revision (email.ts 273-341): guard on
`campaign.scheduled_at`, then the shared body. -/
def scheduleCampaign (env : Env) (w : World) (campaign : EmailCampaign) :
    World × Except SendError Bool :=
  if campaign.scheduled_at.isNone then (w, .error .missingSchedule)
  else campaignSendBody env w campaign

/-- The earlier revision's guard reads `campaign.scheduled_for`
(email.ts 88) — but `EmailCampaign` (email.ts 29-36) declares no such
column, so the JavaScript property access yields `undefined` for every
campaign. -/
def EmailCampaign.scheduled_for (_ : EmailCampaign) : Option String := none

/-- `scheduleCampaign`, earlier revision (email.ts 86-154): identical to
the later one except that the guard tests the nonexistent
`scheduled_for` column. -/
def scheduleCampaignLegacy (env : Env) (w : World) (campaign : EmailCampaign) :
    World × Except SendError Bool :=
  if campaign.scheduled_for.isNone then (w, .error .missingSchedule)
  else campaignSendBody env w campaign

/-! ## Campaign analytics (`getCampaignPerformance`, email.ts 344-375)

The rate computations run on JavaScript numbers, whose division is total:
`x / 0` is `Infinity`/`-Infinity` and `0 / 0` is `NaN`.  `JsNum` models a
JavaScript number as an exact rational extended with `NaN` and the two
infinities — exact for the integer counts and the zero-denominator
behaviour at issue here (no floating-point rounding is modelled). -/

inductive JsNum where
  | num : Rat → JsNum
  | nan : JsNum
  | posInf : JsNum
  | negInf : JsNum
deriving DecidableEq

/-- JavaScript `/` (IEEE-754 semantics on the modelled values). -/
def jsDiv : JsNum → JsNum → JsNum
  | .num a, .num b =>
      if b = 0 then (if a = 0 then .nan else if 0 < a then .posInf else .negInf)
      else .num (a / b)
  | .nan, _ => .nan
  | _, .nan => .nan
  | .posInf, .num b => if b < 0 then .negInf else .posInf
  | .negInf, .num b => if b < 0 then .posInf else .negInf
  | .num _, .posInf => .num 0
  | .num _, .negInf => .num 0
  | .posInf, .posInf => .nan
  | .posInf, .negInf => .nan
  | .negInf, .posInf => .nan
  | .negInf, .negInf => .nan

/-- JavaScript `*` on the modelled values. -/
def jsMul : JsNum → JsNum → JsNum
  | .num a, .num b => .num (a * b)
  | .nan, _ => .nan
  | _, .nan => .nan
  | .posInf, .num b => if b = 0 then .nan else if 0 < b then .posInf else .negInf
  | .num a, .posInf => if a = 0 then .nan else if 0 < a then .posInf else .negInf
  | .negInf, .num b => if b = 0 then .nan else if 0 < b then .negInf else .posInf
  | .num a, .negInf => if a = 0 then .nan else if 0 < a then .negInf else .posInf
  | .posInf, .posInf => .posInf
  | .posInf, .negInf => .negInf
  | .negInf, .posInf => .negInf
  | .negInf, .negInf => .posInf

/-- The derived metrics record (`CampaignAnalytics` in the source): raw
counts plus the five derived ratio fields. -/
structure CampaignMetrics where
  total_sent : Nat
  total_opened : Nat
  total_clicked : Nat
  total_converted : Nat
  total_unsubscribed : Nat
  total_revenue : Rat
  open_rate : JsNum
  click_rate : JsNum
  conversion_rate : JsNum
  unsubscribe_rate : JsNum
  revenue_per_recipient : JsNum
deriving DecidableEq

def countSome (f : AnalyticsEvent → Option String) (rows : List AnalyticsEvent) :
    Nat :=
  (rows.filter (fun e => (f e).isSome)).length

/-- `getCampaignPerformance` (email.ts 344-375): one aggregate query over
`campaign_analytics` filtered by campaign id — `count(*)`,
`count(column)` for the four event columns, `sum(conversion_value)` —
followed by the rate computations
`(numerator / total_sent) * 100` and `total_revenue / total_sent`,
performed with no zero-denominator guard.  (`sum` over an empty set is
SQL `NULL`, which JavaScript division coerces to `0`; the model's `0` sum
is observationally identical through the division.) -/
def getCampaignPerformance (store : Store) (campaignId : String) :
    CampaignMetrics :=
  let rows := store.campaign_analytics.filter
    (fun e => e.campaign_id == campaignId)
  let total_sent : Nat := rows.length
  let total_opened := countSome (fun e => e.opened_at) rows
  let total_clicked := countSome (fun e => e.clicked_at) rows
  let total_converted := countSome (fun e => e.converted_at) rows
  let total_unsubscribed := countSome (fun e => e.unsubscribed_at) rows
  let total_revenue : Rat :=
    (rows.filterMap (fun e => e.conversion_value)).foldl (· + ·) 0
  { total_sent := total_sent
    total_opened := total_opened
    total_clicked := total_clicked
    total_converted := total_converted
    total_unsubscribed := total_unsubscribed
    total_revenue := total_revenue
    open_rate := jsMul (jsDiv (.num total_opened) (.num total_sent)) (.num 100)
    click_rate := jsMul (jsDiv (.num total_clicked) (.num total_sent)) (.num 100)
    conversion_rate :=
      jsMul (jsDiv (.num total_converted) (.num total_sent)) (.num 100)
    unsubscribe_rate :=
      jsMul (jsDiv (.num total_unsubscribed) (.num total_sent)) (.num 100)
    revenue_per_recipient := jsDiv (.num total_revenue) (.num total_sent) }

/-! ## Social service model (`src/services/social.ts`)

The social service validates untyped input with Zod schemas before
writing.  Untyped input is modelled as a JSON-like value `JValue`; the Zod
`parse` calls become validators returning either the conforming record or
the full list of issues (Zod collects every issue of a parse, each with
its field path and reason), mirroring `SocialPostSchema`. -/

inductive JValue where
  | str : String → JValue
  | num : Int → JValue
  | jsbool : Bool → JValue
  | null : JValue
  | arr : List JValue → JValue
  | obj : List (String × JValue) → JValue

def jLookup (fields : List (String × JValue)) (k : String) : Option JValue :=
  (fields.find? (fun p => p.fst == k)).map Prod.snd

/-- Reason of one Zod issue: required field absent, wrong type, or a
string outside the declared enum. -/
inductive VReason where
  | missing
  | wrongType
  | notInEnum
deriving DecidableEq

/-- One Zod issue: the path of the violated field and the reason. -/
abbrev Issue := List String × VReason

/-- Combine two validation results, concatenating issue lists so that
every violated field of the input is reported, as `ZodError` does. -/
def eAnd : Except (List Issue) α → Except (List Issue) β →
    Except (List Issue) (α × β)
  | .ok a, .ok b => .ok (a, b)
  | .error e, .ok _ => .error e
  | .ok _, .error f => .error f
  | .error e, .error f => .error (e ++ f)

/-- `z.string()` on a required field. -/
def reqString (fields : List (String × JValue)) (k : String) :
    Except (List Issue) String :=
  match jLookup fields k with
  | none => .error [([k], .missing)]
  | some (.str s) => .ok s
  | some _ => .error [([k], .wrongType)]

/-- `z.string().optional()`. -/
def optString (fields : List (String × JValue)) (k : String) :
    Except (List Issue) (Option String) :=
  match jLookup fields k with
  | none => .ok none
  | some (.str s) => .ok (some s)
  | some _ => .error [([k], .wrongType)]

/-- Elementwise check of `z.array(z.string())`, recording the index of
each offending element in its issue path. -/
def strElemsFrom (k : String) (i : Nat) : List JValue →
    Except (List Issue) (List String)
  | [] => .ok []
  | v :: rest =>
      let head : Except (List Issue) String :=
        match v with
        | .str s => .ok s
        | _ => .error [([k, toString i], .wrongType)]
      (eAnd head (strElemsFrom k (i + 1) rest)).map (fun p => p.1 :: p.2)

/-- `z.array(z.string()).optional()`. -/
def optStringArray (fields : List (String × JValue)) (k : String) :
    Except (List Issue) (Option (List String)) :=
  match jLookup fields k with
  | none => .ok none
  | some (.arr xs) => (strElemsFrom k 0 xs).map some
  | some _ => .error [([k], .wrongType)]

/-- `z.record(z.unknown()).optional()`. -/
def optRecord (fields : List (String × JValue)) (k : String) :
    Except (List Issue) (Option (List (String × JValue))) :=
  match jLookup fields k with
  | none => .ok none
  | some (.obj pairs) => .ok (some pairs)
  | some _ => .error [([k], .wrongType)]

inductive PostStatus where
  | draft
  | scheduled
  | published
deriving DecidableEq

/-- `z.enum(['draft', 'scheduled', 'published']).optional()`. -/
def optStatus (fields : List (String × JValue)) (k : String) :
    Except (List Issue) (Option PostStatus) :=
  match jLookup fields k with
  | none => .ok none
  | some (.str "draft") => .ok (some .draft)
  | some (.str "scheduled") => .ok (some .scheduled)
  | some (.str "published") => .ok (some .published)
  | some (.str _) => .error [([k], .notInEnum)]
  | some _ => .error [([k], .wrongType)]

/-- The validated shape of `SocialPostSchema` (social.ts 14-23); unknown
input keys are dropped, as Zod object parsing does. -/
structure SocialPost where
  platform : String
  content : String
  media_urls : Option (List String)
  scheduled_at : Option String
  tags : Option (List String)
  location : Option (List (String × JValue))
  campaign_id : Option String
  status : Option PostStatus

/-- `SocialPostSchema.parse` (social.ts 14-23): validate all fields,
collecting every issue, or produce the conforming record. -/
def validateSocialPost (j : JValue) : Except (List Issue) SocialPost :=
  match j with
  | .obj fields =>
      (eAnd (reqString fields "platform")
        (eAnd (reqString fields "content")
          (eAnd (optStringArray fields "media_urls")
            (eAnd (optString fields "scheduled_at")
              (eAnd (optStringArray fields "tags")
                (eAnd (optRecord fields "location")
                  (eAnd (optString fields "campaign_id")
                    (optStatus fields "status")))))))).map
        (fun x =>
          { platform := x.1, content := x.2.1, media_urls := x.2.2.1,
            scheduled_at := x.2.2.2.1, tags := x.2.2.2.2.1,
            location := x.2.2.2.2.2.1, campaign_id := x.2.2.2.2.2.2.1,
            status := x.2.2.2.2.2.2.2 })
  | _ => .error [([], .wrongType)]

inductive SocialErr where
  | validation : List Issue → SocialErr
  | missingSchedule

/-- `createSocialPost` (social.ts 53-76): parse, then insert the validated
record into `social_posts` and return the stored row; a `ZodError` is
rethrown with no write.  Store transport failures are not modelled. -/
def createSocialPost (posts : List SocialPost) (input : JValue) :
    List SocialPost × Except SocialErr SocialPost :=
  match validateSocialPost input with
  | .error issues => (posts, .error (.validation issues))
  | .ok p => (posts ++ [p], .ok p)

/-- `scheduleSocialPost` (social.ts 78-105): parse, fail when
`scheduled_at` is absent, otherwise force `status := 'scheduled'` and
insert. -/
def scheduleSocialPost (posts : List SocialPost) (input : JValue) :
    List SocialPost × Except SocialErr SocialPost :=
  match validateSocialPost input with
  | .error issues => (posts, .error (.validation issues))
  | .ok p =>
      if p.scheduled_at.isNone then (posts, .error .missingSchedule)
      else
        let p' := { p with status := some PostStatus.scheduled }
        (posts ++ [p'], .ok p')

inductive InteractionType where
  | like
  | share
  | comment
deriving DecidableEq

/-- A `social_interactions` row (`SocialInteractionSchema`,
social.ts 25-32). -/
structure SocialInteraction where
  post_id : String
  type : InteractionType
  platform_user_id : Option String
  platform_username : Option String
  content : Option String
  metadata : Option (List (String × JValue))

structure SocialAnalytics where
  likes : Nat
  shares : Nat
  comments : Nat
  total_engagement : Nat
deriving DecidableEq

/-- `getSocialPostAnalytics` (social.ts 107-134): one aggregate query over
`social_interactions` filtered by `post_id`, counting each interaction
type and the total; the result is defaulted field-by-field with `?? 0`.
An id with no interactions yields the zero row (an aggregate without
grouping always returns one row), and the function returns plainly — it
throws only on store transport failure, which is not modelled. -/
def getSocialPostAnalytics (interactions : List SocialInteraction)
    (postId : String) : SocialAnalytics :=
  let rows := interactions.filter (fun i => i.post_id == postId)
  { likes := (rows.filter (fun i => i.type == InteractionType.like)).length
    shares := (rows.filter (fun i => i.type == InteractionType.share)).length
    comments := (rows.filter (fun i => i.type == InteractionType.comment)).length
    total_engagement := rows.length }

/-- `createEmailTemplate` (email.ts 240-254): inserts its input into
`email_templates` and returns the stored row.  Unlike every write of the
social service, it applies NO schema validation — `EmailTemplateSchema`
is declared in the module (email.ts 209-215) but never used here — so the
input is taken untyped and written as-is.  Store transport failures, the
only failure mode, are not modelled. -/
def createEmailTemplate (templates : List JValue) (template : JValue) :
    List JValue × JValue :=
  (templates ++ [template], template)

/-! ## Concrete fixtures

Small closed instances used to evaluate the model: a campaign with three
matched recipients, two delivery environments (all succeed / recipient #2
throws), and sample social-service inputs. -/

def contact1 : Contact := ⟨[("id", "1"), ("email", "ana@example.com"), ("name", "Ana")]⟩

def contact2 : Contact := ⟨[("id", "2"), ("email", "bad@example.com"), ("name", "Bea")]⟩

def contact3 : Contact := ⟨[("id", "3"), ("email", "cyn@example.com"), ("name", "Cyn")]⟩

def templateX : EmailTemplate :=
  { id := "t1", name := "welcome", subject := "Hello",
    content := "Hi \x7b\x7bname\x7d\x7d!", vars := ["name"] }

def campaignX : EmailCampaign :=
  { id := "c1", name := "launch", template_id := "t1", status := "draft",
    scheduled_at := some "2025-01-01T00:00:00Z", sent_at := none,
    target_audience := [] }

def storeX : Store :=
  { email_templates := [templateX], email_campaigns := [campaignX],
    contacts := [contact1, contact2, contact3], campaign_analytics := [] }

def worldX : World := { store := storeX, sent := [] }

/-- Delivery environment in which every send completes. -/
def envAll : Env :=
  { sendOk := fun _ => true, renderHtml := fun s => s,
    now := "2025-01-02T00:00:00Z" }

/-- Segment view of the spec's rendering example
`"Hi \x7b\x7bname\x7d\x7d, \x7b\x7bunused\x7d\x7d!"`. -/
def segsX : List Seg :=
  [Seg.lit "Hi ", Seg.hole "name", Seg.lit ", ", Seg.hole "unused", Seg.lit "!"]

def ctxAna : String → Option String :=
  fun k => if k = "name" then some "Ana" else none

/-- The two-character value `$&` — a `GetSubstitution` sequence that
re-inserts the matched token. -/
def ctxAmp : String → Option String :=
  fun k => if k = "name" then some "$&" else none

/-- The two-character value `$` followed by an apostrophe (U+0027) — the
`GetSubstitution` sequence for the text after the match. -/
def dollarQuoteVal : String := ⟨['$', Char.ofNat 39]⟩

def ctxDollar : String → Option String :=
  fun k => if k = "name" then some dollarQuoteVal else none

/-- Segment view of `"Hi \x7b\x7bname\x7d\x7d and \x7b\x7bname\x7d\x7d!"`:
the part before the first `name` hole... -/
def preX : List Seg := [Seg.lit "Hi "]

/-- ...and the part after it, containing the second `name` hole. -/
def postX : List Seg := [Seg.lit " and ", Seg.hole "name", Seg.lit "!"]

/-- A valid social-post input with no `scheduled_at`. -/
def validPostInput : JValue :=
  .obj [("platform", .str "instagram"), ("content", .str "hello world")]

/-- What `SocialPostSchema.parse` makes of `validPostInput`. -/
def goodPost : SocialPost :=
  { platform := "instagram", content := "hello world", media_urls := none,
    scheduled_at := none, tags := none, location := none,
    campaign_id := none, status := none }

/-- An email-template input missing the required `name`, `content` and
`variables` fields (only `subject` is present). -/
def badTemplateInput : JValue := .obj [("subject", .str "Hello")]

/-- A social-post input missing the required `content` field. -/
def noContentInput : JValue := .obj [("platform", .str "instagram")]

def interactionsX : List SocialInteraction :=
  [⟨"p1", .like, none, none, none, none⟩]

/-! ## Renderer lemmas

What the substitution loop does to a well-formed template: the first
occurrence of each listed token is replaced, later occurrences and
unlisted tokens are untouched. -/

theorem getSubstitution_cons_ne (m pre post : List Char) (c : Char)
    (rest : List Char) (hc : c ≠ '$') :
    getSubstitution m pre post (c :: rest)
      = c :: getSubstitution m pre post rest := by
  rw [getSubstitution.eq_def]
  simp [hc]

theorem getSubstitution_of_dollarFree (m pre post : List Char) :
    ∀ rep, DollarFree rep → getSubstitution m pre post rep = rep := by
  intro rep
  induction rep with
  | nil => intro _; rfl
  | cons c rest ih =>
      intro h
      have hc : c ≠ '$' := h c (List.mem_cons_self _ _)
      rw [getSubstitution_cons_ne m pre post c rest hc,
        ih (fun x hx => h x (List.mem_cons_of_mem _ hx))]

theorem listReplaceFirstFrom_at_match (pat rep t acc : List Char) :
    listReplaceFirstFrom pat rep acc (pat ++ t)
      = getSubstitution pat acc t rep ++ t := by
  cases pat with
  | nil =>
      cases t with
      | nil => simp [listReplaceFirstFrom]
      | cons c s => simp [listReplaceFirstFrom, List.nil_prefix]
  | cons a pat' =>
      rw [List.cons_append, listReplaceFirstFrom]
      rw [if_pos (by rw [← List.cons_append]; exact List.prefix_append _ _)]
      rw [← List.cons_append, List.drop_left]

theorem listReplaceFirstFrom_no_open (p rep : List Char) :
    ∀ (s t acc : List Char), (∀ c ∈ s, c ≠ '{') →
      listReplaceFirstFrom ('{' :: p) rep acc (s ++ t)
        = s ++ listReplaceFirstFrom ('{' :: p) rep (acc ++ s) t := by
  intro s
  induction s with
  | nil => intro t acc _; simp
  | cons c s ih =>
      intro t acc h
      have hc : c ≠ '{' := h c (List.mem_cons_self _ _)
      rw [List.cons_append, listReplaceFirstFrom]
      rw [if_neg (by rw [List.cons_prefix_cons]; rintro ⟨h1, -⟩; exact hc h1.symm)]
      rw [ih t (acc ++ [c]) (fun x hx => h x (List.mem_cons_of_mem _ hx))]
      simp [List.append_assoc]


theorem not_prefix_token_tail :
    ∀ (v n t : List Char), (∀ c ∈ v, c ≠ '}') → (∀ c ∈ n, c ≠ '}') → v ≠ n →
      ¬ ((v ++ [ '}', '}']) <+: (n ++ '}' :: '}' :: t)) := by
  intro v
  induction v with
  | nil =>
      intro n t _ hn hne
      cases n with
      | nil => exact absurd rfl hne
      | cons c n' =>
          rw [List.nil_append, List.cons_append, List.cons_prefix_cons]
          rintro ⟨h1, -⟩
          exact hn c (List.mem_cons_self _ _) h1.symm
  | cons a v' ih =>
      intro n t hv hn hne
      cases n with
      | nil =>
          rw [List.cons_append, List.nil_append, List.cons_prefix_cons]
          rintro ⟨h1, -⟩
          exact hv a (List.mem_cons_self _ _) h1
      | cons c n' =>
          rw [List.cons_append, List.cons_append, List.cons_prefix_cons]
          rintro ⟨h1, h2⟩
          subst h1
          exact ih n' t (fun x hx => hv x (List.mem_cons_of_mem _ hx))
            (fun x hx => hn x (List.mem_cons_of_mem _ hx))
            (fun he => hne (by rw [he])) h2

theorem segsOk_cons {sg : Seg} {l : List Seg} :
    SegsOk (sg :: l) ↔ SegOk sg ∧ SegsOk l := by
  simp [SegsOk]

theorem flattenC_append :
    ∀ (a b : List Seg), flattenC (a ++ b) = flattenC a ++ flattenC b := by
  intro a
  induction a with
  | nil => intro b; rfl
  | cons sg rest ih =>
      intro b
      show sg.chars ++ flattenC (rest ++ b) = (sg.chars ++ flattenC rest) ++ flattenC b
      rw [ih b, List.append_assoc]

theorem listReplaceFirstFrom_skip_seg (v val : String) (hv : NameOk v.data)
    (sg : Seg) (hsg : SegOk sg) (hne : sg ≠ Seg.hole v) :
    ∀ (t acc : List Char),
      listReplaceFirstFrom (tokenChars v.data) val.data acc (sg.chars ++ t)
        = sg.chars ++ listReplaceFirstFrom (tokenChars v.data) val.data
            (acc ++ sg.chars) t := by
  cases sg with
  | lit s =>
      intro t acc
      show listReplaceFirstFrom (tokenChars v.data) val.data acc (s.data ++ t) = _
      rw [show tokenChars v.data = '{' :: ('{' :: (v.data ++ [ '}', '}'])) from rfl]
      rw [listReplaceFirstFrom_no_open _ _ _ _ _ hsg]
      rfl
  | hole n =>
      intro t acc
      have hnv : n ≠ v := fun hc => hne (by rw [hc])
      have hnd : n.data ≠ v.data := fun he => hnv (String.ext he)
      have hn' : NameOk n.data := hsg
      have hchars : (Seg.hole n).chars ++ t
          = '{' :: '{' :: ((n.data ++ [ '}', '}']) ++ t) := by
        show tokenChars n.data ++ t = _
        simp [tokenChars]
      have hno : ¬ (tokenChars v.data <+:
          '{' :: '{' :: ((n.data ++ [ '}', '}']) ++ t)) := by
        rw [show tokenChars v.data = '{' :: '{' :: (v.data ++ [ '}', '}']) from rfl]
        rw [List.cons_prefix_cons, List.cons_prefix_cons]
        rintro ⟨-, -, h3⟩
        have h3' : (v.data ++ [ '}', '}']) <+: (n.data ++ '}' :: '}' :: t) := by
          simpa using h3
        exact not_prefix_token_tail v.data n.data t
          (fun c hc => (hv c hc).2) (fun c hc => (hn' c hc).2)
          (fun he => hnd he.symm) h3'
      have hno2 : ¬ (tokenChars v.data <+:
          '{' :: ((n.data ++ [ '}', '}']) ++ t)) := by
        rw [show tokenChars v.data = '{' :: '{' :: (v.data ++ [ '}', '}']) from rfl]
        rw [List.cons_prefix_cons]
        rintro ⟨-, h2⟩
        cases hnde : n.data with
        | nil =>
            rw [hnde] at h2
            rw [List.nil_append, List.cons_append, List.cons_prefix_cons] at h2
            exact absurd h2.1 (by decide)
        | cons c n' =>
            rw [hnde] at h2
            rw [List.cons_append, List.cons_append, List.cons_prefix_cons] at h2
            exact (hn' c (by rw [hnde]; exact List.mem_cons_self _ _)).1 h2.1.symm
      have hall : ∀ c ∈ n.data ++ [ '}', '}'], c ≠ '{' := by
        intro c hc
        rcases List.mem_append.mp hc with h | h
        · exact (hn' c h).1
        · have hc2 : c = '}' := by simpa using h
          simp [hc2]
      rw [hchars, listReplaceFirstFrom, if_neg hno, listReplaceFirstFrom,
        if_neg hno2]
      rw [show tokenChars v.data = '{' :: ('{' :: (v.data ++ [ '}', '}'])) from rfl]
      rw [listReplaceFirstFrom_no_open _ _ _ _ _ hall]
      rw [show ('{' :: ('{' :: (v.data ++ [ '}', '}']))) = tokenChars v.data from rfl]
      show _ = tokenChars n.data ++ _
      simp [Seg.chars, tokenChars, List.append_assoc]

theorem listReplaceFirst_flattenC (v val : String) (hv : NameOk v.data)
    (hvdollar : DollarFree val.data) :
    ∀ (segs : List Seg) (acc : List Char), SegsOk segs →
      listReplaceFirstFrom (tokenChars v.data) val.data acc (flattenC segs)
        = flattenC (replaceHole1 segs v val) := by
  intro segs
  induction segs with
  | nil =>
      intro acc _
      show listReplaceFirstFrom (tokenChars v.data) val.data acc [] = flattenC []
      rw [listReplaceFirstFrom]
      rw [if_neg (by simp [tokenChars])]
      rfl
  | cons sg rest ih =>
      intro acc hok
      rcases segsOk_cons.mp hok with ⟨hsg, hrest⟩
      by_cases hmatch : sg = Seg.hole v
      · subst hmatch
        show listReplaceFirstFrom (tokenChars v.data) val.data acc
            (tokenChars v.data ++ flattenC rest) = _
        rw [listReplaceFirstFrom_at_match]
        rw [getSubstitution_of_dollarFree _ _ _ _ hvdollar]
        show val.data ++ flattenC rest
            = flattenC (replaceHole1 (Seg.hole v :: rest) v val)
        rw [replaceHole1, if_pos rfl]
        rfl
      · show listReplaceFirstFrom (tokenChars v.data) val.data acc
            (sg.chars ++ flattenC rest) = _
        rw [listReplaceFirstFrom_skip_seg v val hv sg hsg hmatch]
        rw [ih (acc ++ sg.chars) hrest]
        cases sg with
        | lit s => rfl
        | hole n =>
            have hnv : n ≠ v := fun hc => hmatch (by rw [hc])
            show tokenChars n.data ++ flattenC (replaceHole1 rest v val)
                = flattenC (replaceHole1 (Seg.hole n :: rest) v val)
            rw [replaceHole1, if_neg hnv]
            rfl


theorem token_dataEq (v : String) :
    ("\x7b\x7b" ++ v ++ "\x7d\x7d").data = tokenChars v.data := by
  show ("\x7b\x7b".data ++ v.data) ++ "\x7d\x7d".data = tokenChars v.data
  show (['{', '{'] ++ v.data) ++ [ '}', '}'] = tokenChars v.data
  simp [tokenChars]

theorem SegsOk_replaceHole1 (v val : String) (hval : LitOk val.data) :
    ∀ segs : List Seg, SegsOk segs → SegsOk (replaceHole1 segs v val) := by
  intro segs
  induction segs with
  | nil => intro h; exact h
  | cons sg rest ih =>
      intro h
      rcases segsOk_cons.mp h with ⟨hsg, hrest⟩
      cases sg with
      | lit s =>
          rw [replaceHole1]
          exact segsOk_cons.mpr ⟨hsg, ih hrest⟩
      | hole n =>
          by_cases hnv : n = v
          · rw [replaceHole1, if_pos hnv]
            exact segsOk_cons.mpr ⟨hval, hrest⟩
          · rw [replaceHole1, if_neg hnv]
            exact segsOk_cons.mpr ⟨hsg, ih hrest⟩

theorem substituteVars_segStr :
    ∀ (vars : List String) (segs : List Seg) (ctx : String → Option String),
      SegsOk segs →
      (∀ v ∈ vars, NameOk v.data) →
      (∀ v ∈ vars, LitOk (contactValue ctx v).data) →
      (∀ v ∈ vars, DollarFree (contactValue ctx v).data) →
      substituteVars (segStr segs) vars ctx = segStr (applyVars vars ctx segs) := by
  intro vars
  induction vars with
  | nil => intro segs ctx _ _ _ _; rfl
  | cons v vs ih =>
      intro segs ctx hok hnames hvals hdollars
      have hstep : replaceFirst (segStr segs) ("\x7b\x7b" ++ v ++ "\x7d\x7d")
          (contactValue ctx v) = segStr (replaceHole1 segs v (contactValue ctx v)) := by
        show (⟨listReplaceFirstFrom ("\x7b\x7b" ++ v ++ "\x7d\x7d").data
            (contactValue ctx v).data [] (segStr segs).data⟩ : String) = _
        rw [token_dataEq]
        show (⟨listReplaceFirstFrom (tokenChars v.data) (contactValue ctx v).data
            [] (flattenC segs)⟩ : String) = segStr (replaceHole1 segs v (contactValue ctx v))
        rw [listReplaceFirst_flattenC v (contactValue ctx v)
          (hnames v (List.mem_cons_self _ _))
          (hdollars v (List.mem_cons_self _ _)) segs [] hok]
        rfl
      show substituteVars (replaceFirst (segStr segs) ("\x7b\x7b" ++ v ++ "\x7d\x7d")
          (contactValue ctx v)) vs ctx = _
      rw [hstep]
      rw [ih (replaceHole1 segs v (contactValue ctx v)) ctx
        (SegsOk_replaceHole1 v _ (hvals v (List.mem_cons_self _ _)) segs hok)
        (fun u hu => hnames u (List.mem_cons_of_mem _ hu))
        (fun u hu => hvals u (List.mem_cons_of_mem _ hu))
        (fun u hu => hdollars u (List.mem_cons_of_mem _ hu))]
      rfl

theorem mapHole_id (v val : String) :
    ∀ segs : List Seg, holeCount segs v = 0 → segs.map (mapHole v val) = segs := by
  intro segs
  induction segs with
  | nil => intro _; rfl
  | cons sg rest ih =>
      intro h
      by_cases hsg : sg = Seg.hole v
      · exfalso
        rw [holeCount, List.filter_cons, if_pos (by simp [hsg])] at h
        simp at h
      · rw [holeCount, List.filter_cons, if_neg (by simp [hsg])] at h
        rw [List.map_cons, mapHole, if_neg hsg, ih h]

theorem replaceHole1_eq_map (v val : String) :
    ∀ segs : List Seg, holeCount segs v ≤ 1 →
      replaceHole1 segs v val = segs.map (mapHole v val) := by
  intro segs
  induction segs with
  | nil => intro _; rfl
  | cons sg rest ih =>
      intro h
      cases sg with
      | lit s =>
          rw [holeCount, List.filter_cons, if_neg (by simp)] at h
          rw [replaceHole1, List.map_cons, mapHole, if_neg (by simp), ih h]
      | hole n =>
          by_cases hnv : n = v
          · subst hnv
            rw [holeCount, List.filter_cons, if_pos (by simp)] at h
            simp only [List.length_cons] at h
            have h0 : holeCount rest n = 0 := by rw [holeCount]; omega
            rw [replaceHole1, if_pos rfl, List.map_cons, mapHole, if_pos rfl,
              mapHole_id n val rest h0]
          · rw [holeCount, List.filter_cons, if_neg (by simp [hnv])] at h
            rw [replaceHole1, if_neg hnv, List.map_cons, mapHole,
              if_neg (by simp [hnv]), ih h]

theorem holeCount_cons (sg : Seg) (rest : List Seg) (v : String) :
    holeCount (sg :: rest) v
      = (if sg = Seg.hole v then 1 else 0) + holeCount rest v := by
  by_cases h : sg = Seg.hole v
  · simp [holeCount, List.filter_cons, h]
    omega
  · simp [holeCount, List.filter_cons, h]

theorem holeCount_map_mapHole_le (v val u : String) :
    ∀ segs : List Seg,
      holeCount (segs.map (mapHole v val)) u ≤ holeCount segs u := by
  intro segs
  induction segs with
  | nil => exact Nat.le_refl _
  | cons sg rest ih =>
      rw [List.map_cons, holeCount_cons, holeCount_cons]
      by_cases hsg : sg = Seg.hole v
      · rw [mapHole, if_pos hsg]
        by_cases hlit : (Seg.lit val : Seg) = Seg.hole u
        · exact absurd hlit (by simp)
        · rw [if_neg hlit]
          by_cases hu : sg = Seg.hole u <;> simp [hu] <;> omega
      · rw [mapHole, if_neg hsg]
        by_cases hu : sg = Seg.hole u <;> simp [hu] <;> omega

theorem substSeg_nil (ctx : String → Option String) (sg : Seg) :
    substSeg [] ctx sg = sg := by
  cases sg <;> simp [substSeg]

theorem applyVars_eq_map (ctx : String → Option String) :
    ∀ (vars : List String) (segs : List Seg),
      (∀ v ∈ vars, holeCount segs v ≤ 1) →
      applyVars vars ctx segs = segs.map (substSeg vars ctx) := by
  intro vars
  induction vars with
  | nil =>
      intro segs _
      show segs = segs.map (substSeg [] ctx)
      rw [List.map_congr_left (fun sg _ => substSeg_nil ctx sg)]
      exact (List.map_id segs).symm
  | cons v vs ih =>
      intro segs h
      show applyVars vs ctx (replaceHole1 segs v (contactValue ctx v)) = _
      rw [replaceHole1_eq_map v _ segs (h v (List.mem_cons_self _ _))]
      rw [ih (segs.map (mapHole v (contactValue ctx v)))
        (fun u hu => Nat.le_trans (holeCount_map_mapHole_le v _ u segs)
          (h u (List.mem_cons_of_mem _ hu)))]
      rw [List.map_map]
      refine List.map_congr_left (fun sg _ => ?_)
      cases sg with
      | lit s => simp [substSeg, mapHole, Function.comp]
      | hole n =>
          by_cases hnv : n = v
          · subst hnv
            simp [substSeg, mapHole, Function.comp]
          · have h1 : mapHole v (contactValue ctx v) (Seg.hole n) = Seg.hole n := by
              rw [mapHole, if_neg (by simp [hnv])]
            simp only [Function.comp_apply, h1, substSeg]
            by_cases hmem : n ∈ vs <;> simp [List.mem_cons, hnv, hmem]

theorem replaceHole1_append_of_no_hole (v val : String) :
    ∀ (pre post : List Seg), holeCount pre v = 0 →
      replaceHole1 (pre ++ Seg.hole v :: post) v val
        = pre ++ Seg.lit val :: post := by
  intro pre
  induction pre with
  | nil =>
      intro post _
      rw [List.nil_append, replaceHole1, if_pos rfl, List.nil_append]
  | cons sg pre' ih =>
      intro post h
      rw [holeCount_cons] at h
      have hsg : sg ≠ Seg.hole v := by
        intro hc; rw [if_pos hc] at h; omega
      have h' : holeCount pre' v = 0 := by
        rw [if_neg hsg] at h; omega
      cases sg with
      | lit s =>
          rw [List.cons_append, replaceHole1, ih post h', List.cons_append]
      | hole n =>
          have hnv : n ≠ v := fun hc => hsg (by rw [hc])
          rw [List.cons_append, replaceHole1, if_neg hnv, ih post h', List.cons_append]

/-- C4 as amended: rendering a template content (viewed as literal runs
and placeholder holes, with brace-free names, literals and values that
open no token) against a declared variable list and a recipient value map
whose values carry no `$` replacement sequence replaces, for each listed
name with at most one hole, its literal token by the string form of the
recipient's value for that name — the empty string when the value is
absent (`contactValue`) — in the listed order, while every hole not
listed in the variable list is left unsubstituted.  (A value containing
`$` is expanded by `String.replace`, not inserted verbatim — see the
accompanying counterexample.) -/
theorem render_substitutes_listed_vars (segs : List Seg) (vars : List String)
    (ctx : String → Option String)
    (hok : SegsOk segs)
    (hnames : ∀ v ∈ vars, NameOk v.data)
    (hvals : ∀ v ∈ vars, LitOk (contactValue ctx v).data)
    (hdollars : ∀ v ∈ vars, DollarFree (contactValue ctx v).data)
    (honce : ∀ v ∈ vars, holeCount segs v ≤ 1) :
    substituteVars (segStr segs) vars ctx = segStr (segs.map (substSeg vars ctx)) := by
  rw [substituteVars_segStr vars segs ctx hok hnames hvals hdollars]
  rw [applyVars_eq_map ctx vars segs honce]

theorem listReplaceFirstFrom_first_hole (v val : String) (hv : NameOk v.data) :
    ∀ (pre : List Seg) (post : List Seg) (acc : List Char),
      SegsOk pre → holeCount pre v = 0 →
      listReplaceFirstFrom (tokenChars v.data) val.data acc
          (flattenC (pre ++ Seg.hole v :: post))
        = flattenC pre
            ++ getSubstitution (tokenChars v.data) (acc ++ flattenC pre)
                (flattenC post) val.data
            ++ flattenC post := by
  intro pre
  induction pre with
  | nil =>
      intro post acc _ _
      show listReplaceFirstFrom (tokenChars v.data) val.data acc
          (tokenChars v.data ++ flattenC post) = _
      rw [listReplaceFirstFrom_at_match]
      simp [flattenC]
  | cons sg pre' ih =>
      intro post acc hok h0
      rcases segsOk_cons.mp hok with ⟨hsg, hpre'⟩
      have hsgne : sg ≠ Seg.hole v := by
        intro hc
        rw [holeCount_cons, if_pos hc] at h0
        omega
      have h0' : holeCount pre' v = 0 := by
        rw [holeCount_cons, if_neg hsgne] at h0
        omega
      show listReplaceFirstFrom (tokenChars v.data) val.data acc
          (sg.chars ++ flattenC (pre' ++ Seg.hole v :: post)) = _
      rw [listReplaceFirstFrom_skip_seg v val hv sg hsg hsgne]
      rw [ih post (acc ++ sg.chars) hpre' h0']
      show _ = (sg.chars ++ flattenC pre') ++ _ ++ flattenC post
      simp [flattenC, List.append_assoc]

/-- C10: the substitution step replaces only the FIRST occurrence of each
declared token: when the token occurs again after the first occurrence
(`Seg.hole v ∈ post`), the output is the text before the first occurrence,
then the `GetSubstitution`-expansion of the recipient's value at that one
occurrence, then the whole remainder `post` — including every later
occurrence — exactly as it was; and whenever the value carries no `$`
sequence, the first occurrence becomes the value itself verbatim. -/
theorem render_replaces_first_occurrence_only (pre post : List Seg) (v : String)
    (ctx : String → Option String)
    (hok : SegsOk (pre ++ Seg.hole v :: post))
    (hpre : holeCount pre v = 0)
    (_hdup : Seg.hole v ∈ post) :
    (substituteVars (segStr (pre ++ Seg.hole v :: post)) [v] ctx).data
      = flattenC pre
          ++ getSubstitution (tokenChars v.data) (flattenC pre) (flattenC post)
              (contactValue ctx v).data
          ++ flattenC post
    ∧ (DollarFree (contactValue ctx v).data →
        substituteVars (segStr (pre ++ Seg.hole v :: post)) [v] ctx
          = segStr (pre ++ Seg.lit (contactValue ctx v) :: post)) := by
  have hname : NameOk v.data := by
    have h := hok (Seg.hole v) (by
      exact List.mem_append.mpr (Or.inr (List.mem_cons_self _ _)))
    exact h
  have hokpre : SegsOk pre := fun sg h => hok sg (List.mem_append_left _ h)
  have hmain : (substituteVars (segStr (pre ++ Seg.hole v :: post)) [v] ctx).data
      = flattenC pre
          ++ getSubstitution (tokenChars v.data) (flattenC pre) (flattenC post)
              (contactValue ctx v).data
          ++ flattenC post := by
    show listReplaceFirstFrom ("\x7b\x7b" ++ v ++ "\x7d\x7d").data
        (contactValue ctx v).data [] (flattenC (pre ++ Seg.hole v :: post)) = _
    rw [token_dataEq]
    rw [listReplaceFirstFrom_first_hole v (contactValue ctx v) hname
      pre post [] hokpre hpre]
    rw [List.nil_append]
  refine ⟨hmain, fun hdf => ?_⟩
  apply String.ext
  rw [hmain, getSubstitution_of_dollarFree _ _ _ _ hdf]
  show _ = flattenC (pre ++ Seg.lit (contactValue ctx v) :: post)
  rw [flattenC_append]
  show _ = flattenC pre ++ ((contactValue ctx v).data ++ flattenC post)
  rw [List.append_assoc]

/-! ## Campaign orchestration lemmas -/

/-- C2 (code bug in the earlier revision): `scheduleCampaign` at
email.ts 86-154 guards on `campaign.scheduled_for`, a column absent from
`EmailCampaign`, so it throws its schedule-required error even for a
campaign whose `scheduled_at` IS present (while performing no write) —
against the claim that it fails this way exactly when `scheduled_at` is
absent.  The later revision (email.ts 273-341, guard on `scheduled_at`)
accepts the same campaign. -/
theorem scheduleCampaignLegacy_rejects_scheduled_campaign :
    campaignX.scheduled_at = some "2025-01-01T00:00:00Z" ∧
    scheduleCampaignLegacy envAll worldX campaignX
      = (worldX, Except.error SendError.missingSchedule) ∧
    (scheduleCampaign envAll worldX campaignX).2 = Except.ok true :=
  ⟨rfl, rfl, rfl⟩

/-- Witness for the amended C4: the spec's example — rendering
`"Hi \x7b\x7bname\x7d\x7d, \x7b\x7bunused\x7d\x7d!"` with declared
variables `["name"]` and the dollar-free value `name = "Ana"` yields
`"Hi Ana, \x7b\x7bunused\x7d\x7d!"`: the unlisted `unused` placeholder
is untouched. -/
theorem render_substitutes_listed_vars_witness :
    segStr segsX = "Hi \x7b\x7bname\x7d\x7d, \x7b\x7bunused\x7d\x7d!" ∧
    SegsOk segsX ∧ (∀ v ∈ ["name"], NameOk v.data) ∧
    (∀ v ∈ ["name"], LitOk (contactValue ctxAna v).data) ∧
    (∀ v ∈ ["name"], DollarFree (contactValue ctxAna v).data) ∧
    (∀ v ∈ ["name"], holeCount segsX v ≤ 1) ∧
    substituteVars (segStr segsX) ["name"] ctxAna
      = segStr (segsX.map (substSeg ["name"] ctxAna)) ∧
    segStr (segsX.map (substSeg ["name"] ctxAna))
      = "Hi Ana, \x7b\x7bunused\x7d\x7d!" :=
  ⟨rfl, by decide, by decide, by decide, by decide, by decide,
    render_substitutes_listed_vars segsX ["name"] ctxAna
      (by decide) (by decide) (by decide) (by decide) (by decide),
    rfl⟩

/-- C4 counterexample: the token is NOT always replaced by the string form
of the recipient's value.  With the value `$` + apostrophe,
`String.replace` expands the sequence to the text after the match:
rendering `"Hi \x7b\x7bname\x7d\x7d!"` with `["name"]` yields
`"Hi !!"`, not `"Hi "` ++ the value ++ `"!"` as the claim states. -/
theorem render_dollar_value_not_verbatim :
    ctxDollar "name" = some dollarQuoteVal ∧
    substituteVars "Hi \x7b\x7bname\x7d\x7d!" ["name"] ctxDollar = "Hi !!" ∧
    substituteVars "Hi \x7b\x7bname\x7d\x7d!" ["name"] ctxDollar
      ≠ "Hi " ++ dollarQuoteVal ++ "!" :=
  ⟨rfl, by decide, by decide⟩


/-- Witness for C10: rendering
`"Hi \x7b\x7bname\x7d\x7d and \x7b\x7bname\x7d\x7d!"` with `["name"]`
and `name = "Ana"` yields `"Hi Ana and \x7b\x7bname\x7d\x7d!"`: only the
first occurrence of the token is replaced and the second stays.  With the
value `"$&"` the first occurrence is rewritten to the expanded
replacement — the matched token itself — so the output keeps both
occurrences, exactly as the program does. -/
theorem render_replaces_first_occurrence_only_witness :
    segStr (preX ++ Seg.hole "name" :: postX)
      = "Hi \x7b\x7bname\x7d\x7d and \x7b\x7bname\x7d\x7d!" ∧
    SegsOk (preX ++ Seg.hole "name" :: postX) ∧
    holeCount preX "name" = 0 ∧
    Seg.hole "name" ∈ postX ∧
    ((substituteVars (segStr (preX ++ Seg.hole "name" :: postX)) ["name"] ctxAna).data
        = flattenC preX
            ++ getSubstitution (tokenChars "name".data) (flattenC preX)
                (flattenC postX) (contactValue ctxAna "name").data
            ++ flattenC postX
      ∧ (DollarFree (contactValue ctxAna "name").data →
          substituteVars (segStr (preX ++ Seg.hole "name" :: postX)) ["name"] ctxAna
            = segStr (preX ++ Seg.lit (contactValue ctxAna "name") :: postX))) ∧
    DollarFree (contactValue ctxAna "name").data ∧
    substituteVars (segStr (preX ++ Seg.hole "name" :: postX)) ["name"] ctxAna
      = "Hi Ana and \x7b\x7bname\x7d\x7d!" ∧
    substituteVars (segStr (preX ++ Seg.hole "name" :: postX)) ["name"] ctxAmp
      = "Hi \x7b\x7bname\x7d\x7d and \x7b\x7bname\x7d\x7d!" :=
  ⟨rfl, by decide, by decide, by decide,
    render_replaces_first_occurrence_only preX postX "name" ctxAna
      (by decide) (by decide) (by decide),
    by decide, by decide, by decide⟩

/-! ## Claim theorems: analytics rates -/

/-- C5 as amended: on a campaign id whose analytics row has
`total_sent = 0`, `getCampaignPerformance` divides by zero with no guard:
all four rate fields and `revenue_per_recipient` evaluate to `NaN`
(`0 / 0`, then `NaN * 100`) — a NaN-like non-error value, not an explicit
null-or-0 policy. -/
theorem getCampaignPerformance_zero_sent_nan (store : Store) (cid : String)
    (h : store.campaign_analytics.filter (fun e => e.campaign_id == cid) = []) :
    (getCampaignPerformance store cid).open_rate = JsNum.nan ∧
    (getCampaignPerformance store cid).click_rate = JsNum.nan ∧
    (getCampaignPerformance store cid).conversion_rate = JsNum.nan ∧
    (getCampaignPerformance store cid).unsubscribe_rate = JsNum.nan ∧
    (getCampaignPerformance store cid).revenue_per_recipient = JsNum.nan := by
  simp [getCampaignPerformance, h, countSome, jsDiv, jsMul]

/-- Witness for the amended C5: the fixture store holds no analytics
events for campaign `"c1"`. -/
theorem getCampaignPerformance_zero_sent_nan_witness :
    storeX.campaign_analytics.filter (fun e => e.campaign_id == "c1") = [] ∧
    ((getCampaignPerformance storeX "c1").open_rate = JsNum.nan ∧
     (getCampaignPerformance storeX "c1").click_rate = JsNum.nan ∧
     (getCampaignPerformance storeX "c1").conversion_rate = JsNum.nan ∧
     (getCampaignPerformance storeX "c1").unsubscribe_rate = JsNum.nan ∧
     (getCampaignPerformance storeX "c1").revenue_per_recipient = JsNum.nan) :=
  ⟨rfl, getCampaignPerformance_zero_sent_nan storeX "c1" rfl⟩

/-- C5 counterexample: at a concrete campaign with `total_sent = 0` the
four rate fields and `revenue_per_recipient` are `NaN` — in particular
`open_rate` is not the `0` (and the model has no `null`) that the claimed
explicit policy would require. -/
theorem getCampaignPerformance_zero_sent_not_policy :
    (getCampaignPerformance storeX "c1").total_sent = 0 ∧
    (getCampaignPerformance storeX "c1").open_rate = JsNum.nan ∧
    (getCampaignPerformance storeX "c1").click_rate = JsNum.nan ∧
    (getCampaignPerformance storeX "c1").conversion_rate = JsNum.nan ∧
    (getCampaignPerformance storeX "c1").unsubscribe_rate = JsNum.nan ∧
    (getCampaignPerformance storeX "c1").revenue_per_recipient = JsNum.nan ∧
    (getCampaignPerformance storeX "c1").open_rate ≠ JsNum.num 0 :=
  ⟨rfl, rfl, rfl, rfl, rfl, rfl, by decide⟩

/-! ## Claim theorems: social service -/

theorem eAnd_mem_left {α β : Type} (i : Issue) {a : Except (List Issue) α}
    (b : Except (List Issue) β) {l : List Issue}
    (ha : a = .error l) (hi : i ∈ l) :
    ∃ m, eAnd a b = .error m ∧ i ∈ m := by
  subst ha
  cases b with
  | ok v => exact ⟨l, rfl, hi⟩
  | error f => exact ⟨l ++ f, rfl, List.mem_append_left f hi⟩

theorem eAnd_mem_right {α β : Type} (i : Issue) (a : Except (List Issue) α)
    {b : Except (List Issue) β} {l : List Issue}
    (hb : b = .error l) (hi : i ∈ l) :
    ∃ m, eAnd a b = .error m ∧ i ∈ m := by
  subst hb
  cases a with
  | ok v => exact ⟨l, rfl, hi⟩
  | error e => exact ⟨e ++ l, rfl, List.mem_append_right e hi⟩

/-- C6 as amended, social half: `createSocialPost` validates before any
write — on valid input the stored record and the returned record are
exactly the validated input, on invalid input it fails with the
validation issues and performs no write, and a missing required field
(`platform` or `content`) is always named, with reason `missing`, among
the reported issues. -/
theorem createSocialPost_validates_before_write :
    (∀ (posts : List SocialPost) (input : JValue) (p : SocialPost),
        validateSocialPost input = .ok p →
        createSocialPost posts input = (posts ++ [p], .ok p))
    ∧ (∀ (posts : List SocialPost) (input : JValue) (e : List Issue),
        validateSocialPost input = .error e →
        createSocialPost posts input = (posts, .error (.validation e)))
    ∧ (∀ (fields : List (String × JValue)) (e : List Issue),
        validateSocialPost (.obj fields) = .error e →
          (jLookup fields "platform" = none →
            (["platform"], VReason.missing) ∈ e)
          ∧ (jLookup fields "content" = none →
            (["content"], VReason.missing) ∈ e)) := by
  refine ⟨?_, ?_, ?_⟩
  · intro posts input p h
    simp [createSocialPost, h]
  · intro posts input e h
    simp [createSocialPost, h]
  · intro fields e hval
    constructor
    · intro hlook
      obtain ⟨m, hm, hi⟩ := eAnd_mem_left (["platform"], VReason.missing)
        (eAnd (reqString fields "content")
          (eAnd (optStringArray fields "media_urls")
            (eAnd (optString fields "scheduled_at")
              (eAnd (optStringArray fields "tags")
                (eAnd (optRecord fields "location")
                  (eAnd (optString fields "campaign_id")
                    (optStatus fields "status")))))))
        (show reqString fields "platform"
            = .error [(["platform"], VReason.missing)] by
          simp [reqString, hlook])
        (by simp)
      have hv2 : validateSocialPost (.obj fields) = .error m := by
        show (eAnd (reqString fields "platform") _).map _ = _
        rw [hm]
        rfl
      have hera : (Except.error e : Except (List Issue) SocialPost)
          = .error m := hval.symm.trans hv2
      have hem : e = m := by injection hera
      rw [hem]
      exact hi
    · intro hlook
      obtain ⟨m1, hm1, hi1⟩ := eAnd_mem_left (["content"], VReason.missing)
        (eAnd (optStringArray fields "media_urls")
          (eAnd (optString fields "scheduled_at")
            (eAnd (optStringArray fields "tags")
              (eAnd (optRecord fields "location")
                (eAnd (optString fields "campaign_id")
                  (optStatus fields "status"))))))
        (show reqString fields "content"
            = .error [(["content"], VReason.missing)] by
          simp [reqString, hlook])
        (by simp)
      obtain ⟨m, hm, hi⟩ := eAnd_mem_right (["content"], VReason.missing)
        (reqString fields "platform") hm1 hi1
      have hv2 : validateSocialPost (.obj fields) = .error m := by
        show (eAnd (reqString fields "platform") _).map _ = _
        rw [hm]
        rfl
      have hera : (Except.error e : Except (List Issue) SocialPost)
          = .error m := hval.symm.trans hv2
      have hem : e = m := by injection hera
      rw [hem]
      exact hi

/-- Witness for the amended C6: a valid input is stored and returned
as validated; an input missing `content` fails naming `content`, with no
write. -/
theorem createSocialPost_validates_before_write_witness :
    validateSocialPost validPostInput = .ok goodPost ∧
    createSocialPost [] validPostInput = ([goodPost], .ok goodPost) ∧
    validateSocialPost noContentInput
      = .error [(["content"], VReason.missing)] ∧
    createSocialPost [] noContentInput
      = ([], .error (.validation [(["content"], VReason.missing)])) ∧
    jLookup [("platform", JValue.str "instagram")] "content" = none ∧
    (["content"], VReason.missing) ∈ [(["content"], VReason.missing)] :=
  ⟨rfl,
   createSocialPost_validates_before_write.1 [] validPostInput goodPost rfl,
   rfl,
   createSocialPost_validates_before_write.2.1 [] noContentInput
     [(["content"], VReason.missing)] rfl,
   rfl,
   (createSocialPost_validates_before_write.2.2
     [("platform", JValue.str "instagram")]
     [(["content"], VReason.missing)] rfl).2 rfl⟩

/-- C6 counterexample: not every write operation validates before
writing — `createEmailTemplate` on an input missing the required `name`,
`content` and `variables` fields still performs the store write and
returns the malformed row; no validation error is possible (its result
type has no error case besides unmodelled store transport failures). -/
theorem createEmailTemplate_writes_without_validation :
    jLookup [("subject", JValue.str "Hello")] "name" = none ∧
    jLookup [("subject", JValue.str "Hello")] "content" = none ∧
    jLookup [("subject", JValue.str "Hello")] "variables" = none ∧
    createEmailTemplate [] badTemplateInput
      = ([badTemplateInput], badTemplateInput) :=
  ⟨rfl, rfl, rfl, rfl⟩

/-- C7: for every input whose validated form has no `scheduled_at`,
`scheduleSocialPost` fails with its schedule-required error and performs
no store write. -/
theorem scheduleSocialPost_requires_schedule (posts : List SocialPost)
    (input : JValue) (p : SocialPost)
    (hok : validateSocialPost input = .ok p)
    (hnone : p.scheduled_at = none) :
    scheduleSocialPost posts input = (posts, .error .missingSchedule) := by
  simp [scheduleSocialPost, hok, hnone]

/-- Witness for C7: a valid post with no `scheduled_at`. -/
theorem scheduleSocialPost_requires_schedule_witness :
    validateSocialPost validPostInput = .ok goodPost ∧
    goodPost.scheduled_at = none ∧
    scheduleSocialPost [] validPostInput
      = ([], .error SocialErr.missingSchedule) :=
  ⟨rfl, rfl,
   scheduleSocialPost_requires_schedule [] validPostInput goodPost rfl rfl⟩

/-- C9: for every post id with no recorded interactions (including an id
that exists nowhere), `getSocialPostAnalytics` returns zero likes, shares,
comments and total engagement; the function is total — within the model
nothing throws (only unmodelled store transport failures can). -/
theorem getSocialPostAnalytics_empty_is_zero
    (interactions : List SocialInteraction) (postId : String)
    (h : interactions.filter (fun i => i.post_id == postId) = []) :
    getSocialPostAnalytics interactions postId = ⟨0, 0, 0, 0⟩ := by
  simp [getSocialPostAnalytics, h]

/-- Witness for C9: a non-existing id over a non-empty interaction
store. -/
theorem getSocialPostAnalytics_empty_is_zero_witness :
    interactionsX.filter (fun i => i.post_id == "none-existing-id") = [] ∧
    getSocialPostAnalytics interactionsX "none-existing-id" = ⟨0, 0, 0, 0⟩ :=
  ⟨rfl,
   getSocialPostAnalytics_empty_is_zero interactionsX "none-existing-id" rfl⟩
